import Mathlib

/-!
# Shallow embedding of the inventory-management system (src/app.py)

The repository is a single-file Flask application over a relational store.
This file embeds the relational state and the mutation handlers the claims
are about, and proves/refutes the claims against that embedding.

Modelling conventions:
* The relational store is a `DB` structure holding the rows of each table as
  lists in insertion order (SQLAlchemy relationship lists preserve insertion
  order) plus autoincrement counters for the surrogate primary keys.
* Python `int` columns become `Int`; monetary `Float` columns become `Rat`
  (the claims about money are the algebraic identities the code computes
  directly, e.g. `subtotal = quantity * unit_price`).
* Timestamp columns (`created_at`, `updated_at`), the `User` table and the
  `created_by` attribution columns do not appear in any claim and are omitted.
* Each handler becomes a function from the pre-state to a result; a rejected
  request (flash-warning redirect, 404, or unhandled fault that the global
  error handler rolls back) carries no new state, matching the fact that in
  the source nothing of a rejected request is committed.
* `db.session.commit()` boundaries are material for the atomicity claim, so
  each handler also gets a `..._commits` function listing the durable states
  it produces in order (one entry per `commit()` on the executed path).
-/

namespace IMS

/-- `category` table (src/app.py 154-163): `name` is declared unique. -/
structure Category where
  id : Nat
  name : String
  description : String
deriving DecidableEq

/-- `product` table (src/app.py 166-180): integer on-hand `quantity`,
unique `sku`. -/
structure Product where
  id : Nat
  name : String
  category_id : Nat
  description : String
  unit_price : Rat
  quantity : Int
  reorder_level : Int
  sku : String
deriving DecidableEq

/-- `sale` table (src/app.py 210-223). -/
structure Sale where
  id : Nat
  customer_id : Option Nat
  total_amount : Rat
  payment_method : String
  status : String
deriving DecidableEq

/-- `sale_item` table (src/app.py 226-234). -/
structure SaleItem where
  sale_id : Nat
  product_id : Nat
  quantity : Int
  unit_price : Rat
  subtotal : Rat
deriving DecidableEq

/-- `purchase_order` table (src/app.py 237-250): status is `pending` or
`received`. -/
structure PurchaseOrder where
  id : Nat
  supplier_id : Option Nat
  total_amount : Rat
  status : String
deriving DecidableEq

/-- `purchase_item` table (src/app.py 253-261). -/
structure PurchaseItem where
  purchase_order_id : Nat
  product_id : Nat
  quantity : Int
  unit_price : Rat
  subtotal : Rat
deriving DecidableEq

/-- `stock_history` table (src/app.py 264-279): the append-only ledger. -/
structure StockHistory where
  product_id : Nat
  change_type : String
  quantity_change : Int
  previous_quantity : Int
  new_quantity : Int
  reference_id : Option Nat
  reference_type : Option String
deriving DecidableEq

/-- The relational store: one list of rows per table, in insertion order,
plus the autoincrement counters for the primary keys the handlers assign. -/
structure DB where
  categories : List Category
  products : List Product
  sales : List Sale
  sale_items : List SaleItem
  purchase_orders : List PurchaseOrder
  purchase_items : List PurchaseItem
  stock_history : List StockHistory
  next_category_id : Nat
  next_product_id : Nat
  next_sale_id : Nat
deriving DecidableEq

/-- Primary-key lookup in a product list (`Product.query.get`). -/
def findP (ps : List Product) (pid : Nat) : Option Product :=
  ps.find? (fun p => p.id == pid)

/-- `Product.query.get(pid)` on the store. -/
def findProduct (db : DB) (pid : Nat) : Option Product :=
  findP db.products pid

/-- The stored quantity of a product, when the product exists. -/
def prodQty (db : DB) (pid : Nat) : Option Int :=
  (findProduct db pid).map (fun p => p.quantity)

/-- In-place mutation of one product row's quantity (`product.quantity ± n`). -/
def updQ (ps : List Product) (pid : Nat) (f : Int → Int) : List Product :=
  ps.map (fun p => if p.id == pid then { p with quantity := f p.quantity } else p)

/-- Quantity mutation lifted to the store. -/
def updateProductQty (db : DB) (pid : Nat) (f : Int → Int) : DB :=
  { db with products := updQ db.products pid f }

/-- `Category.query.get(cid)`. -/
def findCategory (db : DB) (cid : Nat) : Option Category :=
  db.categories.find? (fun c => c.id == cid)

/-- `Sale.query.get(sid)`. -/
def findSale (db : DB) (sid : Nat) : Option Sale :=
  db.sales.find? (fun s => s.id == sid)

/-- `PurchaseOrder.query.get(oid)`. -/
def findPurchase (db : DB) (oid : Nat) : Option PurchaseOrder :=
  db.purchase_orders.find? (fun o => o.id == oid)

/-- In-place mutation of one purchase order's status (`purchase.status = ...`). -/
def setPurchaseStatus (db : DB) (oid : Nat) (st : String) : DB :=
  { db with purchase_orders :=
      db.purchase_orders.map (fun o => if o.id == oid then { o with status := st } else o) }

/-- Outcome of `/category/add`. -/
inductive AddCategoryResult
  | duplicate
  | ok (db : DB)
deriving DecidableEq

/-- `/category/add` (src/app.py 415-430): an existing category with the same
name is rejected with a flash warning and nothing is written; otherwise the
category is inserted and committed. -/
def add_category (db : DB) (name description : String) : AddCategoryResult :=
  if db.categories.any (fun c => c.name == name) then .duplicate
  else .ok { db with
    categories := db.categories ++
      [{ id := db.next_category_id, name := name, description := description }],
    next_category_id := db.next_category_id + 1 }

/-- The store after `/category/add` (rejections leave it unchanged). -/
def add_category_db (db : DB) (name description : String) : DB :=
  match add_category db name description with
  | .ok db1 => db1
  | .duplicate => db

/-- Outcome of `/category/delete/<id>`. -/
inductive DeleteCategoryResult
  | notFound
  | blocked
  | ok (db : DB)
deriving DecidableEq

/-- `/category/delete/<id>` (src/app.py 445-457): 404 when the id is unknown;
a category that still owns products (`if category.products:`) is rejected with
a flash notice and nothing changes; otherwise the category row is deleted. -/
def delete_category (db : DB) (cid : Nat) : DeleteCategoryResult :=
  match findCategory db cid with
  | none => .notFound
  | some _ =>
    if db.products.any (fun p => p.category_id == cid) then .blocked
    else .ok { db with categories := db.categories.filter (fun c => c.id != cid) }

/-- The store after `/category/delete/<id>`. -/
def delete_category_db (db : DB) (cid : Nat) : DB :=
  match delete_category db cid with
  | .ok db1 => db1
  | _ => db

/-- Outcome of `/product/add`. `integrityError` is the path where the INSERT
violates the unique index on `sku` (src/app.py 175, `unique=True`): the route
performs no duplicate pre-check, so the database raises at commit time, the
error propagates to the 500 handler, and the transaction is rolled back. -/
inductive AddProductResult
  | integrityError
  | ok (db : DB)
deriving DecidableEq

/-- The ledger row `/product/add` writes for initial stock
(src/app.py 506-516). -/
def initial_stock_row (pid : Nat) (qty : Int) : StockHistory :=
  { product_id := pid, change_type := "initial_stock", quantity_change := qty,
    previous_quantity := 0, new_quantity := qty,
    reference_id := none, reference_type := none }

/-- First commit of `/product/add` (src/app.py 482-504): insert the product
row (with its initial quantity) and commit. The unique index on `sku` aborts
this commit when the sku duplicates an existing row. -/
def add_product_commit1 (db : DB) (name : String) (category_id : Nat)
    (description : String) (unit_price : Rat) (quantity : Int)
    (reorder_level : Int) (sku : String) : AddProductResult :=
  if db.products.any (fun p => p.sku == sku) then .integrityError
  else .ok { db with
    products := db.products ++
      [{ id := db.next_product_id, name := name, category_id := category_id,
         description := description, unit_price := unit_price, quantity := quantity,
         reorder_level := reorder_level, sku := sku }],
    next_product_id := db.next_product_id + 1 }

/-- `/product/add` in full (src/app.py 482-519): after the first commit, if
`quantity > 0` a second, separate commit appends the `initial_stock` ledger
row. -/
def add_product (db : DB) (name : String) (category_id : Nat)
    (description : String) (unit_price : Rat) (quantity : Int)
    (reorder_level : Int) (sku : String) : AddProductResult :=
  match add_product_commit1 db name category_id description unit_price quantity reorder_level sku with
  | .integrityError => .integrityError
  | .ok db1 =>
    .ok (if 0 < quantity then
      { db1 with stock_history :=
          db1.stock_history ++ [initial_stock_row db.next_product_id quantity] }
    else db1)

/-- The store after `/product/add` (a failed insert is rolled back). -/
def add_product_db (db : DB) (name : String) (category_id : Nat)
    (description : String) (unit_price : Rat) (quantity : Int)
    (reorder_level : Int) (sku : String) : DB :=
  match add_product db name category_id description unit_price quantity reorder_level sku with
  | .ok db1 => db1
  | .integrityError => db

/-- The durable states `/product/add` produces, one per executed
`db.session.commit()`: the product row is committed on its own first, and the
`initial_stock` ledger row (when `quantity > 0`) only in a second commit. -/
def add_product_commits (db : DB) (name : String) (category_id : Nat)
    (description : String) (unit_price : Rat) (quantity : Int)
    (reorder_level : Int) (sku : String) : List DB :=
  match add_product_commit1 db name category_id description unit_price quantity reorder_level sku with
  | .integrityError => []
  | .ok db1 =>
    if 0 < quantity then
      [db1, { db1 with stock_history :=
          db1.stock_history ++ [initial_stock_row db.next_product_id quantity] }]
    else [db1]

/-- `/stock/adjust/<id>` (src/app.py 579-612): 404 when the product is
unknown; otherwise mutate the quantity in place (adding when the form's
`adjustment_type` is the string `add`, subtracting otherwise, with no floor
check against zero), append exactly one ledger row whose `change_type` is the
supplied reason, and commit once. -/
def adjust_stock (db : DB) (pid : Nat) (adjustment_type : String) (quantity : Int)
    (reason : String) : Option DB :=
  match findProduct db pid with
  | none => none
  | some product =>
    let previous_qty := product.quantity
    let new_qty := if adjustment_type = "add" then previous_qty + quantity
                   else previous_qty - quantity
    let quantity_change := if adjustment_type = "add" then quantity else -quantity
    let db1 := updateProductQty db pid
      (fun q => if adjustment_type = "add" then q + quantity else q - quantity)
    some { db1 with stock_history := db1.stock_history ++
      [{ product_id := product.id, change_type := reason,
         quantity_change := quantity_change, previous_quantity := previous_qty,
         new_quantity := new_qty, reference_id := none, reference_type := none }] }

/-- The store after `/stock/adjust/<id>`. -/
def adjust_stock_db (db : DB) (pid : Nat) (adjustment_type : String) (quantity : Int)
    (reason : String) : DB :=
  match adjust_stock db pid adjustment_type quantity reason with
  | some db1 => db1
  | none => db

/-- One line of the sale-creation form (parallel form arrays, src/app.py
800-802). -/
structure SaleLine where
  product_id : Nat
  quantity : Int
  unit_price : Rat
deriving DecidableEq

/-- One entry of the in-memory `sale_items` python list built by the check
loop (src/app.py 823-828). -/
structure SaleItemData where
  product_id : Nat
  quantity : Int
  unit_price : Rat
  subtotal : Rat
deriving DecidableEq

/-- Outcome of the sale-creation check loop. -/
inductive SaleCheck
  | notFound
  | insufficientStock (productName : String)
  | ok (total : Rat) (items : List SaleItemData)
deriving DecidableEq

/-- The check loop of `/sale/create` (src/app.py 811-830): for each line in
form order, compute `subtotal = quantity * unit_price`, fetch the product
(a missing id faults the request before anything is written), reject the
whole request naming the product when its stored quantity is below the
requested one, and otherwise accumulate the line and its subtotal. No store
write happens in this loop, so every line is checked against the pre-sale
stored quantity. -/
def checkLines (db : DB) : List SaleLine → SaleCheck
  | [] => .ok 0 []
  | line :: rest =>
    let subtotal : Rat := (line.quantity : Rat) * line.unit_price
    match findProduct db line.product_id with
    | none => .notFound
    | some product =>
      if product.quantity < line.quantity then .insufficientStock product.name
      else
        match checkLines db rest with
        | .notFound => .notFound
        | .insufficientStock n => .insufficientStock n
        | .ok total items =>
          .ok (subtotal + total)
            ({ product_id := line.product_id, quantity := line.quantity,
               unit_price := line.unit_price, subtotal := subtotal } :: items)

/-- The `SaleItem` row written for one checked line (src/app.py 843-850). -/
def mkSaleItem (sid : Nat) (item : SaleItemData) : SaleItem :=
  { sale_id := sid, product_id := item.product_id, quantity := item.quantity,
    unit_price := item.unit_price, subtotal := item.subtotal }

/-- The ledger row written for one sale line (src/app.py 857-867): the delta
is minus the line quantity and the before/after values bracket the decrement. -/
def mkSaleRow (sid : Nat) (item : SaleItemData) (previous : Int) : StockHistory :=
  { product_id := item.product_id, change_type := "sale",
    quantity_change := -item.quantity, previous_quantity := previous,
    new_quantity := previous - item.quantity,
    reference_id := some sid, reference_type := some "sale" }

/-- One iteration of the sale write loop (src/app.py 842-867): insert the
`SaleItem` row, decrement the product in place, append the ledger row. -/
def saleLineStep (sid : Nat) (db : DB) (item : SaleItemData) (previous : Int) : DB :=
  let db1 := { db with sale_items := db.sale_items ++ [mkSaleItem sid item] }
  let db2 := updateProductQty db1 item.product_id (fun q => q - item.quantity)
  { db2 with stock_history := db2.stock_history ++ [mkSaleRow sid item previous] }

/-- The sale write loop: each iteration re-fetches the product
(`Product.query.get`), so the recorded previous quantity reflects the
decrements of earlier lines of the same request. A missing product faults
the request (rollback). -/
def writeSaleLines (sid : Nat) (db : DB) : List SaleItemData → Option DB
  | [] => some db
  | item :: rest =>
    match findProduct db item.product_id with
    | none => none
    | some product => writeSaleLines sid (saleLineStep sid db item product.quantity) rest

/-- Outcome of `/sale/create`. -/
inductive SaleResult
  | emptyCart
  | notFound
  | insufficientStock (productName : String)
  | fault
  | ok (db : DB) (sid : Nat)
deriving DecidableEq

/-- `/sale/create` (src/app.py 794-872): reject an empty cart; run the check
loop; on success insert the sale header (total = accumulated subtotals, the
new id comes from the autoincrement at flush), run the write loop, and commit
everything once. -/
def create_sale (db : DB) (customer_id : Option Nat) (payment_method : String)
    (lines : List SaleLine) : SaleResult :=
  if lines.isEmpty then .emptyCart
  else
    match checkLines db lines with
    | .notFound => .notFound
    | .insufficientStock n => .insufficientStock n
    | .ok total items =>
      let sid := db.next_sale_id
      let db1 := { db with
        sales := db.sales ++
          [{ id := sid, customer_id := customer_id, total_amount := total,
             payment_method := payment_method, status := "completed" }],
        next_sale_id := sid + 1 }
      match writeSaleLines sid db1 items with
      | none => .fault
      | some db2 => .ok db2 sid

/-- The store after `/sale/create` (rejections and faults roll back). -/
def create_sale_db (db : DB) (customer_id : Option Nat) (payment_method : String)
    (lines : List SaleLine) : DB :=
  match create_sale db customer_id payment_method lines with
  | .ok db1 _ => db1
  | _ => db

/-- Whether `/sale/create` committed a sale. -/
def saleAccepted (db : DB) (customer_id : Option Nat) (payment_method : String)
    (lines : List SaleLine) : Bool :=
  match create_sale db customer_id payment_method lines with
  | .ok _ _ => true
  | _ => false

/-- The restore loop of `/sale/delete/<id>` (src/app.py 893-896): add each
line's recorded quantity back onto its product, writing no ledger row. A
missing product faults the request. -/
def restoreItems (db : DB) : List SaleItem → Option DB
  | [] => some db
  | item :: rest =>
    match findProduct db item.product_id with
    | none => none
    | some _ =>
      restoreItems (updateProductQty db item.product_id (fun q => q + item.quantity)) rest

/-- `/sale/delete/<id>` (src/app.py 888-902): 404 when the sale is unknown;
otherwise restore each line's quantity additively, then delete the sale
header (the `SaleItem` rows go with it by cascade) and commit. No
compensating `StockHistory` row is written. -/
def delete_sale (db : DB) (sid : Nat) : Option DB :=
  match findSale db sid with
  | none => none
  | some _ =>
    match restoreItems db (db.sale_items.filter (fun it => it.sale_id == sid)) with
    | none => none
    | some db1 =>
      some { db1 with
        sales := db1.sales.filter (fun s => s.id != sid),
        sale_items := db1.sale_items.filter (fun it => it.sale_id != sid) }

/-- The store after `/sale/delete/<id>`. -/
def delete_sale_db (db : DB) (sid : Nat) : DB :=
  match delete_sale db sid with
  | some db1 => db1
  | none => db

/-- The ledger row written for one received purchase line
(src/app.py 1008-1017). -/
def mkPurchaseRow (oid : Nat) (item : PurchaseItem) (previous : Int) : StockHistory :=
  { product_id := item.product_id, change_type := "purchase",
    quantity_change := item.quantity, previous_quantity := previous,
    new_quantity := previous + item.quantity,
    reference_id := some oid, reference_type := some "purchase" }

/-- One iteration of the receive loop (src/app.py 1002-1018): increment the
product in place and append the ledger row. -/
def purchaseLineStep (oid : Nat) (db : DB) (item : PurchaseItem) (previous : Int) : DB :=
  let db1 := updateProductQty db item.product_id (fun q => q + item.quantity)
  { db1 with stock_history := db1.stock_history ++ [mkPurchaseRow oid item previous] }

/-- The receive loop over the order's lines; a missing product faults the
request (rollback, nothing persists). -/
def receiveItems (oid : Nat) (db : DB) : List PurchaseItem → Option DB
  | [] => some db
  | item :: rest =>
    match findProduct db item.product_id with
    | none => none
    | some product => receiveItems oid (purchaseLineStep oid db item product.quantity) rest

/-- Outcome of `/purchase/receive/<id>`. -/
inductive ReceiveResult
  | notFound
  | alreadyReceived
  | fault
  | ok (db : DB)
deriving DecidableEq

/-- `/purchase/receive/<id>` (src/app.py 993-1024): 404 when the order is
unknown; an order whose status is already `received` is rejected with a flash
warning and nothing changes; otherwise process every line of the order, flip
the status to `received`, and commit once. -/
def receive_purchase (db : DB) (oid : Nat) : ReceiveResult :=
  match findPurchase db oid with
  | none => .notFound
  | some purchase =>
    if purchase.status = "received" then .alreadyReceived
    else
      match receiveItems purchase.id db
          (db.purchase_items.filter (fun it => it.purchase_order_id == purchase.id)) with
      | none => .fault
      | some db1 => .ok (setPurchaseStatus db1 oid "received")

/-- The store after `/purchase/receive/<id>`. -/
def receive_purchase_db (db : DB) (oid : Nat) : DB :=
  match receive_purchase db oid with
  | .ok db1 => db1
  | _ => db

/-! ## Specification devices

These definitions are not embeddings of source functions: they are the
vocabulary the theorems are stated in (the rows a handler emitted, the sum of
ledger deltas for one product, and the one-step ledger invariant). -/

/-- The `StockHistory` rows appended between two states of the store (the
ledger is append-only, so these are exactly the rows a handler emitted). -/
def emittedRows (db dbF : DB) : List StockHistory :=
  dbF.stock_history.drop db.stock_history.length

/-- Sum of the ledger deltas recorded for one product. -/
def histSum (pid : Nat) (rows : List StockHistory) : Int :=
  ((rows.filter (fun r => r.product_id == pid)).map (fun r => r.quantity_change)).sum

/-- One handler execution kept the ledger paired with the quantities: the old
ledger is a prefix of the new one, and every product's quantity moved by
exactly the sum of the deltas the handler emitted for it. -/
def LedgerStep (db dbF : DB) : Prop :=
  dbF.stock_history = db.stock_history ++ emittedRows db dbF ∧
  ∀ pid : Nat,
    prodQty dbF pid = (prodQty db pid).map (fun q => q + histSum pid (emittedRows db dbF))

/-- The three quantity-touching operations claim C1 ranges over (no sale
deletions). -/
inductive Op
  | adjust (pid : Nat) (adjustment_type : String) (quantity : Int) (reason : String)
  | sale (customer_id : Option Nat) (payment_method : String) (lines : List SaleLine)
  | receive (oid : Nat)

/-- Run one request against the store; a rejected or faulted request leaves
the store unchanged (rollback). -/
def applyOp (db : DB) : Op → DB
  | .adjust pid t q r => adjust_stock_db db pid t q r
  | .sale c pm lines => create_sale_db db c pm lines
  | .receive oid => receive_purchase_db db oid

/-- Run a sequence of requests in order. -/
def applyOps (db : DB) (ops : List Op) : DB :=
  ops.foldl applyOp db

/-- Whether a sale line requests more than the stored quantity of its product
(the check of src/app.py 819). -/
def shortLine (db : DB) (l : SaleLine) : Bool :=
  match findProduct db l.product_id with
  | some p => decide (p.quantity < l.quantity)
  | none => false

/-- Reference description of the ledger rows the sale write loop emits, as a
function of the product table only: the recorded previous quantity of each
row is the product's stock in the state reached after the earlier lines of
the same request (so for the first line touching a product it is the pre-sale
stock). -/
def saleLedgerP (sid : Nat) : List Product → List SaleItemData → List StockHistory
  | _, [] => []
  | ps, item :: rest =>
    match findP ps item.product_id with
    | none => []
    | some product =>
      mkSaleRow sid item product.quantity ::
        saleLedgerP sid (updQ ps item.product_id (fun q => q - item.quantity)) rest

/-- Reference description of the ledger rows the purchase receive loop emits
(same shape as `saleLedgerP`, with increments). -/
def purchaseLedgerP (oid : Nat) : List Product → List PurchaseItem → List StockHistory
  | _, [] => []
  | ps, item :: rest =>
    match findP ps item.product_id with
    | none => []
    | some product =>
      mkPurchaseRow oid item product.quantity ::
        purchaseLedgerP oid (updQ ps item.product_id (fun q => q + item.quantity)) rest

/-- Sum of the recorded quantities of the sale items that reference one
product (what sale deletion adds back onto that product). -/
def restoredSum (pid : Nat) (items : List SaleItem) : Int :=
  ((items.filter (fun it => it.product_id == pid)).map (fun it => it.quantity)).sum

/-! ## Basic lemmas about lookup and in-place update -/

theorem find?_map_update {α : Type} (key : α → Nat) (upd : α → α)
    (hkey : ∀ a, key (upd a) = key a) (l : List α) (pid x : Nat) :
    (l.map (fun a => if key a == pid then upd a else a)).find? (fun a => key a == x) =
      if x = pid then (l.find? (fun a => key a == pid)).map upd
      else l.find? (fun a => key a == x) := by
  induction l with
  | nil => by_cases h : x = pid <;> simp [h]
  | cons a l ih =>
    by_cases hap : key a = pid <;> by_cases hax : key a = x <;> by_cases hxp : x = pid <;>
      simp_all [List.find?_cons, beq_iff_eq, hkey]

theorem findP_updQ (ps : List Product) (pid x : Nat) (f : Int → Int) :
    findP (updQ ps pid f) x =
      if x = pid then (findP ps pid).map (fun p => { p with quantity := f p.quantity })
      else findP ps x := by
  exact find?_map_update (fun p => p.id) (fun p => { p with quantity := f p.quantity })
    (fun p => rfl) ps pid x

theorem prodQty_update (db : DB) (pid x : Nat) (f : Int → Int) :
    prodQty (updateProductQty db pid f) x =
      if x = pid then (prodQty db pid).map f else prodQty db x := by
  by_cases h : x = pid
  · subst h
    simp only [prodQty, findProduct, updateProductQty, findP_updQ, if_pos rfl]
    cases findP db.products x <;> simp
  · simp only [prodQty, findProduct, updateProductQty, findP_updQ, if_neg h]

theorem findProduct_update_isSome (db : DB) (pid x : Nat) (f : Int → Int) :
    (findProduct (updateProductQty db pid f) x).isSome = (findProduct db x).isSome := by
  simp only [findProduct, updateProductQty, findP_updQ]
  by_cases h : x = pid
  · subst h; cases findP db.products x <;> simp
  · simp [h]

theorem findProduct_id (db : DB) (pid : Nat) (p : Product)
    (h : findProduct db pid = some p) : p.id = pid := by
  simp only [findProduct, findP] at h
  simpa [beq_iff_eq] using List.find?_some h

theorem findPurchase_id (db : DB) (oid : Nat) (o : PurchaseOrder)
    (h : findPurchase db oid = some o) : o.id = oid := by
  simp only [findPurchase] at h
  simpa [beq_iff_eq] using List.find?_some h

theorem findPurchase_set (db : DB) (oid x : Nat) (st : String) :
    findPurchase (setPurchaseStatus db oid st) x =
      if x = oid then (findPurchase db oid).map (fun o => { o with status := st })
      else findPurchase db x := by
  exact find?_map_update (fun o => o.id) (fun o => { o with status := st })
    (fun o => rfl) db.purchase_orders oid x

/-! ## The ledger-pairing invariant -/

theorem histSum_append (pid : Nat) (a b : List StockHistory) :
    histSum pid (a ++ b) = histSum pid a + histSum pid b := by
  simp [histSum, List.filter_append]

theorem histSum_singleton (pid : Nat) (r : StockHistory) :
    histSum pid [r] = if r.product_id = pid then r.quantity_change else 0 := by
  by_cases h : r.product_id = pid <;> simp [histSum, h]

theorem ledgerStep_of_append (db dbF : DB) (rows : List StockHistory)
    (hh : dbF.stock_history = db.stock_history ++ rows)
    (hq : ∀ pid, prodQty dbF pid = (prodQty db pid).map (fun q => q + histSum pid rows)) :
    LedgerStep db dbF := by
  have he : emittedRows db dbF = rows := by
    rw [emittedRows, hh, List.drop_left]
  exact ⟨by rw [hh, he], fun pid => by rw [he]; exact hq pid⟩

theorem ledgerStep_of_eq (db dbF : DB) (hp : dbF.products = db.products)
    (hh : dbF.stock_history = db.stock_history) : LedgerStep db dbF := by
  apply ledgerStep_of_append db dbF [] (by simp [hh])
  intro pid
  simp only [prodQty, findProduct, hp, histSum, List.filter_nil, List.map_nil,
    List.sum_nil, add_zero]
  cases findP db.products pid <;> simp

theorem ledgerStep_refl (db : DB) : LedgerStep db db :=
  ledgerStep_of_eq db db rfl rfl

theorem ledgerStep_trans (db1 db2 db3 : DB)
    (h12 : LedgerStep db1 db2) (h23 : LedgerStep db2 db3) : LedgerStep db1 db3 := by
  obtain ⟨e12, q12⟩ := h12
  obtain ⟨e23, q23⟩ := h23
  apply ledgerStep_of_append db1 db3 (emittedRows db1 db2 ++ emittedRows db2 db3)
  · rw [e23, e12, List.append_assoc]
  · intro pid
    rw [q23 pid, q12 pid, histSum_append]
    cases prodQty db1 pid <;> simp [add_assoc]

/-- A state that mutated one product's quantity by `d` and appended exactly
one ledger row carrying delta `d` for that product is a ledger step. -/
theorem ledgerStep_mut (db dbF : DB) (pid : Nat) (d : Int) (r : StockHistory)
    (hprod : dbF.products = updQ db.products pid (fun q => q + d))
    (hpid : r.product_id = pid) (hd : r.quantity_change = d)
    (hh : dbF.stock_history = db.stock_history ++ [r]) :
    LedgerStep db dbF := by
  apply ledgerStep_of_append db dbF [r] hh
  intro x
  have hx : prodQty dbF x = prodQty (updateProductQty db pid (fun q => q + d)) x := by
    simp [prodQty, findProduct, updateProductQty, hprod]
  rw [hx, prodQty_update]
  by_cases hxe : x = pid
  · subst hxe
    simp [histSum_singleton, hpid, hd]
  · rw [if_neg hxe, histSum_singleton,
      if_neg (by rw [hpid]; exact fun hc => hxe hc.symm)]
    cases prodQty db x <;> simp

/-! ## Manual stock adjustment -/

/-- Full characterization of a successful `/stock/adjust/<id>`: the product's
quantity is mutated in place (added to when `adjustment_type` is `add`,
subtracted from otherwise) and exactly one ledger row is appended, carrying
the supplied reason as `change_type`, the signed delta, and the before/after
values. -/
theorem adjust_stock_parts (db : DB) (pid : Nat) (t : String) (q : Int) (r : String)
    (p : Product) (hp : findProduct db pid = some p) :
    adjust_stock db pid t q r = some
      { updateProductQty db pid (fun x => if t = "add" then x + q else x - q) with
        stock_history := db.stock_history ++
          [{ product_id := pid, change_type := r,
             quantity_change := if t = "add" then q else -q,
             previous_quantity := p.quantity,
             new_quantity := if t = "add" then p.quantity + q else p.quantity - q,
             reference_id := none, reference_type := none }] } := by
  have hid := findProduct_id db pid p hp
  simp only [adjust_stock, hp, updateProductQty, hid]

theorem adjust_ledgerStep (db : DB) (pid : Nat) (t : String) (q : Int) (r : String)
    (db1 : DB) (h : adjust_stock db pid t q r = some db1) : LedgerStep db db1 := by
  rcases hp : findProduct db pid with _ | p
  · simp only [adjust_stock, hp] at h
    cases h
  · rw [adjust_stock_parts db pid t q r p hp] at h
    cases h
    apply ledgerStep_mut db _ pid (if t = "add" then q else -q) _ ?_ rfl rfl rfl
    show updQ db.products pid (fun x => if t = "add" then x + q else x - q)
        = updQ db.products pid (fun x => x + (if t = "add" then q else -q))
    rw [show (fun x : Int => if t = "add" then x + q else x - q)
        = (fun x : Int => x + (if t = "add" then q else -q)) from
      funext fun x => by by_cases ht : t = "add" <;> simp [ht, sub_eq_add_neg]]

theorem adjust_stock_db_ledger (db : DB) (pid : Nat) (t : String) (q : Int) (r : String) :
    LedgerStep db (adjust_stock_db db pid t q r) := by
  rcases h : adjust_stock db pid t q r with _ | db1
  · simp only [adjust_stock_db, h]
    exact ledgerStep_refl db
  · simp only [adjust_stock_db, h]
    exact adjust_ledgerStep db pid t q r db1 h

/-! ## Sale creation -/

/-- A successful check loop records each line verbatim with
`subtotal = quantity * unit_price`, and the accumulated total is the sum of
the subtotals. -/
theorem checkLines_ok (db : DB) (lines : List SaleLine) (total : Rat)
    (items : List SaleItemData) (h : checkLines db lines = .ok total items) :
    items = lines.map (fun l =>
      { product_id := l.product_id, quantity := l.quantity, unit_price := l.unit_price,
        subtotal := (l.quantity : Rat) * l.unit_price }) ∧
    total = (lines.map (fun l => (l.quantity : Rat) * l.unit_price)).sum := by
  induction lines generalizing total items with
  | nil =>
    simp only [checkLines] at h
    cases h
    simp
  | cons line rest ih =>
    simp only [checkLines] at h
    split at h
    · cases h
    · split at h
      · cases h
      · split at h
        · cases h
        · cases h
        · rename_i t2 its2 hc
          cases h
          obtain ⟨hi, ht⟩ := ih t2 its2 hc
          simp [hi, ht]

/-- Each iteration of the sale write loop is a ledger step. -/
theorem saleLineStep_ledger (sid : Nat) (db : DB) (item : SaleItemData) (prev : Int) :
    LedgerStep db (saleLineStep sid db item prev) := by
  apply ledgerStep_mut db _ item.product_id (-item.quantity) (mkSaleRow sid item prev)
    ?_ rfl rfl rfl
  show updQ db.products item.product_id (fun q => q - item.quantity)
      = updQ db.products item.product_id (fun q => q + -item.quantity)
  rw [show (fun q : Int => q - item.quantity) = (fun q : Int => q + -item.quantity) from
    funext (fun q => sub_eq_add_neg q item.quantity)]

/-- Full characterization of a successful sale write loop. -/
theorem writeSaleLines_parts (sid : Nat) (items : List SaleItemData) (db db2 : DB)
    (h : writeSaleLines sid db items = some db2) :
    db2.sales = db.sales ∧
    db2.sale_items = db.sale_items ++ items.map (mkSaleItem sid) ∧
    db2.stock_history = db.stock_history ++ saleLedgerP sid db.products items ∧
    db2.purchase_orders = db.purchase_orders ∧
    LedgerStep db db2 := by
  induction items generalizing db with
  | nil =>
    simp only [writeSaleLines] at h
    cases h
    exact ⟨rfl, by simp, by simp [saleLedgerP], rfl, ledgerStep_refl _⟩
  | cons item rest ih =>
    simp only [writeSaleLines] at h
    split at h
    · cases h
    · rename_i product hp
      obtain ⟨hs, hsi, hsh, hpo, hls⟩ := ih (saleLineStep sid db item product.quantity) h
      have hLP : saleLedgerP sid db.products (item :: rest)
          = mkSaleRow sid item product.quantity ::
              saleLedgerP sid (updQ db.products item.product_id
                (fun q => q - item.quantity)) rest := by
        simp only [saleLedgerP,
          show findP db.products item.product_id = some product from hp]
      refine ⟨hs, ?_, ?_, hpo, ledgerStep_trans _ _ _
        (saleLineStep_ledger sid db item product.quantity) hls⟩
      · rw [hsi]
        show (db.sale_items ++ [mkSaleItem sid item]) ++ rest.map (mkSaleItem sid) = _
        simp
      · rw [hsh, hLP]
        show (db.stock_history ++ [mkSaleRow sid item product.quantity]) ++
            saleLedgerP sid (updQ db.products item.product_id
              (fun q => q - item.quantity)) rest = _
        simp

/-- Under a successful write loop, the emitted ledger rows line up one-to-one
with the processed items: same products, deltas equal to minus the line
quantities. -/
theorem saleLedgerP_fields (sid : Nat) (items : List SaleItemData) (db db2 : DB)
    (h : writeSaleLines sid db items = some db2) :
    (saleLedgerP sid db.products items).map (fun r => r.quantity_change)
      = items.map (fun i => -i.quantity) ∧
    (saleLedgerP sid db.products items).map (fun r => r.product_id)
      = items.map (fun i => i.product_id) := by
  induction items generalizing db with
  | nil => simp [saleLedgerP]
  | cons item rest ih =>
    simp only [writeSaleLines] at h
    split at h
    · cases h
    · rename_i product hp
      have hrec := ih (saleLineStep sid db item product.quantity) h
      have hLP : saleLedgerP sid db.products (item :: rest)
          = mkSaleRow sid item product.quantity ::
              saleLedgerP sid (updQ db.products item.product_id
                (fun q => q - item.quantity)) rest := by
        simp only [saleLedgerP,
          show findP db.products item.product_id = some product from hp]
      have hprodEq : (saleLineStep sid db item product.quantity).products
          = updQ db.products item.product_id (fun q => q - item.quantity) := rfl
      rw [hprodEq] at hrec
      rw [hLP]
      exact ⟨by simp [mkSaleRow, hrec.1], by simp [mkSaleRow, hrec.2]⟩

/-- Every row the sale write loop emits is a `sale` row referencing the sale,
with the after value equal to the before value plus the delta. -/
theorem saleLedgerP_mem (sid : Nat) (ps : List Product) (items : List SaleItemData)
    (r : StockHistory) (hr : r ∈ saleLedgerP sid ps items) :
    r.change_type = "sale" ∧ r.reference_id = some sid ∧ r.reference_type = some "sale" ∧
    r.new_quantity = r.previous_quantity + r.quantity_change := by
  induction items generalizing ps with
  | nil => simp [saleLedgerP] at hr
  | cons item rest ih =>
    simp only [saleLedgerP] at hr
    split at hr
    · simp at hr
    · rename_i product hp
      rcases List.mem_cons.mp hr with h1 | h2
      · subst h1
        refine ⟨rfl, rfl, rfl, ?_⟩
        exact sub_eq_add_neg product.quantity item.quantity
      · exact ih _ h2

/-- Full characterization of a successful `/sale/create`. -/
theorem create_sale_ok_parts (db : DB) (c : Option Nat) (pm : String)
    (lines : List SaleLine) (db2 : DB) (sid : Nat)
    (h : create_sale db c pm lines = .ok db2 sid) :
    sid = db.next_sale_id ∧
    ∃ total items,
      checkLines db lines = .ok total items ∧
      db2.sales = db.sales ++
        [{ id := sid, customer_id := c, total_amount := total,
           payment_method := pm, status := "completed" }] ∧
      db2.sale_items = db.sale_items ++ items.map (mkSaleItem sid) ∧
      db2.stock_history = db.stock_history ++ saleLedgerP sid db.products items ∧
      (∃ dbh, writeSaleLines sid dbh items = some db2 ∧ dbh.products = db.products) ∧
      LedgerStep db db2 := by
  simp only [create_sale] at h
  by_cases he : lines.isEmpty
  · rw [if_pos he] at h; cases h
  · rw [if_neg he] at h
    split at h
    · cases h
    · cases h
    · rename_i total items hc
      split at h
      · cases h
      · rename_i dbf hw
        cases h
        obtain ⟨hs, hsi, hsh, _, hls⟩ := writeSaleLines_parts _ _ _ _ hw
        refine ⟨rfl, total, items, hc, by rw [hs], by rw [hsi], by rw [hsh],
          ⟨_, hw, rfl⟩, ?_⟩
        exact ledgerStep_trans _ _ _ (ledgerStep_of_eq _ _ rfl rfl) hls

theorem create_sale_db_ledger (db : DB) (c : Option Nat) (pm : String)
    (lines : List SaleLine) : LedgerStep db (create_sale_db db c pm lines) := by
  rcases h : create_sale db c pm lines with _ | _ | n | _ | ⟨db2, sid⟩ <;>
    simp only [create_sale_db, h]
  · exact ledgerStep_refl db
  · exact ledgerStep_refl db
  · exact ledgerStep_refl db
  · exact ledgerStep_refl db
  · exact (create_sale_ok_parts db c pm lines db2 sid h).2.choose_spec.choose_spec.2.2.2.2.2

/-! ## Purchase receipt -/

theorem purchaseLineStep_ledger (oid : Nat) (db : DB) (item : PurchaseItem) (prev : Int) :
    LedgerStep db (purchaseLineStep oid db item prev) :=
  ledgerStep_mut db _ item.product_id item.quantity (mkPurchaseRow oid item prev)
    rfl rfl rfl rfl

/-- Full characterization of a successful receive loop. -/
theorem receiveItems_parts (oid : Nat) (items : List PurchaseItem) (db db2 : DB)
    (h : receiveItems oid db items = some db2) :
    db2.sales = db.sales ∧ db2.sale_items = db.sale_items ∧
    db2.purchase_orders = db.purchase_orders ∧
    db2.purchase_items = db.purchase_items ∧
    db2.stock_history = db.stock_history ++ purchaseLedgerP oid db.products items ∧
    LedgerStep db db2 := by
  induction items generalizing db with
  | nil =>
    simp only [receiveItems] at h
    cases h
    exact ⟨rfl, rfl, rfl, rfl, by simp [purchaseLedgerP], ledgerStep_refl _⟩
  | cons item rest ih =>
    simp only [receiveItems] at h
    split at h
    · cases h
    · rename_i product hp
      obtain ⟨hs, hsi, hpo, hpi, hsh, hls⟩ :=
        ih (purchaseLineStep oid db item product.quantity) h
      have hLP : purchaseLedgerP oid db.products (item :: rest)
          = mkPurchaseRow oid item product.quantity ::
              purchaseLedgerP oid (updQ db.products item.product_id
                (fun q => q + item.quantity)) rest := by
        simp only [purchaseLedgerP,
          show findP db.products item.product_id = some product from hp]
      refine ⟨hs, hsi, hpo, hpi, ?_, ledgerStep_trans _ _ _
        (purchaseLineStep_ledger oid db item product.quantity) hls⟩
      rw [hsh, hLP]
      show (db.stock_history ++ [mkPurchaseRow oid item product.quantity]) ++
          purchaseLedgerP oid (updQ db.products item.product_id
            (fun q => q + item.quantity)) rest = _
      simp

/-- Under a successful receive loop, the emitted rows line up one-to-one with
the order's lines: same products, deltas equal to the line quantities. -/
theorem purchaseLedgerP_fields (oid : Nat) (items : List PurchaseItem) (db db2 : DB)
    (h : receiveItems oid db items = some db2) :
    (purchaseLedgerP oid db.products items).map (fun r => r.quantity_change)
      = items.map (fun i => i.quantity) ∧
    (purchaseLedgerP oid db.products items).map (fun r => r.product_id)
      = items.map (fun i => i.product_id) := by
  induction items generalizing db with
  | nil => simp [purchaseLedgerP]
  | cons item rest ih =>
    simp only [receiveItems] at h
    split at h
    · cases h
    · rename_i product hp
      have hrec := ih (purchaseLineStep oid db item product.quantity) h
      have hprodEq : (purchaseLineStep oid db item product.quantity).products
          = updQ db.products item.product_id (fun q => q + item.quantity) := rfl
      rw [hprodEq] at hrec
      have hLP : purchaseLedgerP oid db.products (item :: rest)
          = mkPurchaseRow oid item product.quantity ::
              purchaseLedgerP oid (updQ db.products item.product_id
                (fun q => q + item.quantity)) rest := by
        simp only [purchaseLedgerP,
          show findP db.products item.product_id = some product from hp]
      rw [hLP]
      exact ⟨by simp [mkPurchaseRow, hrec.1], by simp [mkPurchaseRow, hrec.2]⟩

/-- Every row the receive loop emits is a `purchase` row referencing the
order, with the after value equal to the before value plus the delta. -/
theorem purchaseLedgerP_mem (oid : Nat) (ps : List Product) (items : List PurchaseItem)
    (r : StockHistory) (hr : r ∈ purchaseLedgerP oid ps items) :
    r.change_type = "purchase" ∧ r.reference_id = some oid ∧
    r.reference_type = some "purchase" ∧
    r.new_quantity = r.previous_quantity + r.quantity_change := by
  induction items generalizing ps with
  | nil => simp [purchaseLedgerP] at hr
  | cons item rest ih =>
    simp only [purchaseLedgerP] at hr
    split at hr
    · simp at hr
    · rename_i product hp
      rcases List.mem_cons.mp hr with h1 | h2
      · subst h1
        exact ⟨rfl, rfl, rfl, rfl⟩
      · exact ih _ h2

/-- Full characterization of a successful `/purchase/receive/<id>`. -/
theorem receive_purchase_ok_parts (db : DB) (oid : Nat) (db2 : DB)
    (h : receive_purchase db oid = .ok db2) :
    (∃ o, findPurchase db oid = some o ∧ o.status ≠ "received" ∧
      findPurchase db2 oid = some { o with status := "received" }) ∧
    db2.stock_history = db.stock_history ++
      purchaseLedgerP oid db.products
        (db.purchase_items.filter (fun it => it.purchase_order_id == oid)) ∧
    (∃ dbr, receiveItems oid db
        (db.purchase_items.filter (fun it => it.purchase_order_id == oid)) = some dbr) ∧
    LedgerStep db db2 ∧
    db2.sales = db.sales ∧ db2.sale_items = db.sale_items := by
  simp only [receive_purchase] at h
  split at h
  · cases h
  · rename_i o ho
    have hoid : o.id = oid := findPurchase_id db oid o ho
    rw [hoid] at h
    split at h
    · cases h
    · rename_i hst
      split at h
      · cases h
      · rename_i dbr hw
        cases h
        obtain ⟨hs, hsi, hpo, hpi, hsh, hls⟩ := receiveItems_parts _ _ _ _ hw
        refine ⟨⟨o, ho, hst, ?_⟩, ?_, ⟨dbr, hw⟩, ?_, ?_, ?_⟩
        · rw [findPurchase_set, if_pos rfl]
          have hfind : findPurchase dbr oid = findPurchase db oid := by
            simp only [findPurchase, hpo]
          rw [hfind, ho]
          rfl
        · show dbr.stock_history = _
          exact hsh
        · exact ledgerStep_trans _ _ _ hls (ledgerStep_of_eq dbr _ rfl rfl)
        · show dbr.sales = db.sales
          exact hs
        · show dbr.sale_items = db.sale_items
          exact hsi

theorem receive_purchase_db_ledger (db : DB) (oid : Nat) :
    LedgerStep db (receive_purchase_db db oid) := by
  rcases h : receive_purchase db oid with _ | _ | _ | db2 <;>
    simp only [receive_purchase_db, h]
  · exact ledgerStep_refl db
  · exact ledgerStep_refl db
  · exact ledgerStep_refl db
  · exact (receive_purchase_ok_parts db oid db2 h).2.2.2.1

/-- Receiving is idempotent on the store: a second `/purchase/receive/<id>`
after any first call leaves the store as the first call left it. -/
theorem receive_purchase_db_idem (db : DB) (oid : Nat) :
    receive_purchase_db (receive_purchase_db db oid) oid = receive_purchase_db db oid := by
  rcases h : receive_purchase db oid with _ | _ | _ | db2 <;>
    simp only [receive_purchase_db, h]
  obtain ⟨⟨o, _, _, hfind⟩, _, _, _, _, _⟩ := receive_purchase_ok_parts db oid db2 h
  have h2 : receive_purchase db2 oid = .alreadyReceived := by
    simp [receive_purchase, hfind]
  simp only [h2]

/-! ## Sale deletion -/

theorem restoredSum_cons (pid : Nat) (it : SaleItem) (rest : List SaleItem) :
    restoredSum pid (it :: rest) =
      (if it.product_id = pid then it.quantity else 0) + restoredSum pid rest := by
  by_cases h : it.product_id = pid <;> simp [restoredSum, h]

/-- The restore loop of sale deletion succeeds when every referenced product
exists, adds each item's recorded quantity back onto its product, and writes
nothing else — in particular no ledger row. -/
theorem restoreItems_parts (items : List SaleItem) (db : DB)
    (hAll : ∀ it ∈ items, (findProduct db it.product_id).isSome = true) :
    ∃ db1, restoreItems db items = some db1 ∧
      db1.sales = db.sales ∧ db1.sale_items = db.sale_items ∧
      db1.stock_history = db.stock_history ∧
      ∀ pid, prodQty db1 pid = (prodQty db pid).map (fun q => q + restoredSum pid items) := by
  induction items generalizing db with
  | nil =>
    refine ⟨db, rfl, rfl, rfl, rfl, fun pid => ?_⟩
    cases prodQty db pid <;> simp [restoredSum]
  | cons item rest ih =>
    have hpres : (findProduct db item.product_id).isSome = true :=
      hAll item (List.mem_cons_self item rest)
    rcases Option.isSome_iff_exists.mp hpres with ⟨p, hp⟩
    have hAll2 : ∀ it ∈ rest,
        (findProduct (updateProductQty db item.product_id
          (fun q => q + item.quantity)) it.product_id).isSome = true := by
      intro it hit
      rw [findProduct_update_isSome]
      exact hAll it (List.mem_cons_of_mem item hit)
    obtain ⟨db1, hr, hs, hsi, hsh, hq⟩ :=
      ih (updateProductQty db item.product_id (fun q => q + item.quantity)) hAll2
    refine ⟨db1, ?_, hs, hsi, hsh, ?_⟩
    · simp only [restoreItems, hp]
      exact hr
    · intro pid
      rw [hq pid, prodQty_update, restoredSum_cons]
      by_cases hx : pid = item.product_id
      · subst hx
        rw [if_pos rfl, if_pos rfl]
        cases prodQty db item.product_id <;> simp [add_assoc]
      · rw [if_neg hx, if_neg (fun hc => hx hc.symm)]
        cases prodQty db pid <;> simp

/-- Full characterization of a successful `/sale/delete/<id>`: quantities
are restored additively, the sale and its items are removed, and the ledger
is untouched. -/
theorem delete_sale_parts (db : DB) (sid : Nat) (s : Sale)
    (hs : findSale db sid = some s)
    (hAll : ∀ it ∈ db.sale_items.filter (fun it => it.sale_id == sid),
      (findProduct db it.product_id).isSome = true) :
    ∃ db1, delete_sale db sid = some db1 ∧
      db1.stock_history = db.stock_history ∧
      db1.sales = db.sales.filter (fun x => x.id != sid) ∧
      db1.sale_items = db.sale_items.filter (fun it => it.sale_id != sid) ∧
      ∀ pid, prodQty db1 pid = (prodQty db pid).map
        (fun q => q + restoredSum pid (db.sale_items.filter (fun it => it.sale_id == sid))) := by
  obtain ⟨dbr, hr, hrs, hrsi, hrsh, hrq⟩ :=
    restoreItems_parts (db.sale_items.filter (fun it => it.sale_id == sid)) db hAll
  refine ⟨{ dbr with
      sales := dbr.sales.filter (fun x => x.id != sid),
      sale_items := dbr.sale_items.filter (fun it => it.sale_id != sid) },
    ?_, ?_, ?_, ?_, ?_⟩
  · simp only [delete_sale, hs, hr]
  · exact hrsh
  · show dbr.sales.filter (fun x => x.id != sid) = db.sales.filter (fun x => x.id != sid)
    rw [hrs]
  · show dbr.sale_items.filter (fun it => it.sale_id != sid)
        = db.sale_items.filter (fun it => it.sale_id != sid)
    rw [hrsi]
  · intro pid
    exact hrq pid

/-! ## Sequences of quantity-touching requests -/

theorem applyOp_ledger (db : DB) (op : Op) : LedgerStep db (applyOp db op) := by
  rcases op with ⟨pid, t, q, r⟩ | ⟨c, pm, lines⟩ | oid
  · exact adjust_stock_db_ledger db pid t q r
  · exact create_sale_db_ledger db c pm lines
  · exact receive_purchase_db_ledger db oid

theorem applyOps_ledger (db : DB) (ops : List Op) : LedgerStep db (applyOps db ops) := by
  induction ops generalizing db with
  | nil => exact ledgerStep_refl db
  | cons op ops ih =>
    exact ledgerStep_trans _ _ _ (applyOp_ledger db op) (ih (applyOp db op))

/-! ## Commit granularity

Each handler's `..._commits` lists the durable states it produces, one per
`db.session.commit()` executed on its path. Adjustment (src/app.py 609),
sale creation (869) and purchase receipt (1021) each commit exactly once,
at the end; product creation commits twice (504 and 516). A rejected request
commits nothing. -/

def adjust_stock_commits (db : DB) (pid : Nat) (t : String) (q : Int) (r : String) :
    List DB :=
  match adjust_stock db pid t q r with
  | some db1 => [db1]
  | none => []

def create_sale_commits (db : DB) (c : Option Nat) (pm : String) (lines : List SaleLine) :
    List DB :=
  match create_sale db c pm lines with
  | .ok db1 _ => [db1]
  | _ => []

def receive_purchase_commits (db : DB) (oid : Nat) : List DB :=
  match receive_purchase db oid with
  | .ok db1 => [db1]
  | _ => []

/-! ## The insufficient-stock rejection path -/

/-- When every line's product exists and some line is short, the check loop
stops at the first short line and reports that product's name. -/
theorem checkLines_first_short (db : DB) (lines : List SaleLine) (l0 : SaleLine)
    (p0 : Product)
    (hAll : ∀ l ∈ lines, (findProduct db l.product_id).isSome = true)
    (hFirst : lines.find? (shortLine db) = some l0)
    (hp0 : findProduct db l0.product_id = some p0) :
    checkLines db lines = .insufficientStock p0.name := by
  induction lines with
  | nil => simp at hFirst
  | cons l rest ih =>
    cases hsl : shortLine db l
    · simp only [List.find?_cons, hsl] at hFirst
      have hpres : (findProduct db l.product_id).isSome = true :=
        hAll l (List.mem_cons_self l rest)
      rcases Option.isSome_iff_exists.mp hpres with ⟨p, hp⟩
      have hnlt : ¬ p.quantity < l.quantity := by
        simp only [shortLine, hp] at hsl
        exact of_decide_eq_false hsl
      have hrec := ih (fun x hx => hAll x (List.mem_cons_of_mem l hx)) hFirst
      simp only [checkLines, hp]
      rw [if_neg hnlt]
      simp only [hrec]
    · rw [List.find?_cons_of_pos rest hsl] at hFirst
      have hl0 : l = l0 := Option.some.inj hFirst
      subst hl0
      simp only [shortLine, hp0] at hsl
      have hlt : p0.quantity < l.quantity := of_decide_eq_true hsl
      simp only [checkLines, hp0]
      rw [if_pos hlt]

/-! ## Concrete stores used by witnesses and counterexamples -/

/-- The empty store, as after `db.create_all()` (autoincrement ids start
at 1). -/
def emptyDB : DB :=
  { categories := [], products := [], sales := [], sale_items := [],
    purchase_orders := [], purchase_items := [], stock_history := [],
    next_category_id := 1, next_product_id := 1, next_sale_id := 1 }

/-- A sample product with five units on hand. -/
def wProduct : Product :=
  { id := 1, name := "Widget", category_id := 1, description := "",
    unit_price := 10, quantity := 5, reorder_level := 2, sku := "W1" }

/-- A store holding one category and one product with five units on hand. -/
def wDB : DB :=
  { categories := [{ id := 1, name := "Electronics", description := "" }],
    products := [wProduct],
    sales := [], sale_items := [], purchase_orders := [], purchase_items := [],
    stock_history := [], next_category_id := 2, next_product_id := 2, next_sale_id := 1 }

/-- Two sale lines for the same product, each within its stock of 5 but
jointly exceeding it. -/
def linesC7 : List SaleLine :=
  [{ product_id := 1, quantity := 3, unit_price := 10 },
   { product_id := 1, quantity := 3, unit_price := 10 }]

/-- The spec's example scenario: a Laptop with ten units in stock at 45000. -/
def laptopDB : DB :=
  { categories := [{ id := 1, name := "Electronics", description := "" }],
    products := [{ id := 1, name := "Laptop", category_id := 1, description := "",
                   unit_price := 45000, quantity := 10, reorder_level := 10,
                   sku := "ELEC001" }],
    sales := [], sale_items := [], purchase_orders := [], purchase_items := [],
    stock_history := [], next_category_id := 2, next_product_id := 2, next_sale_id := 1 }

/-- One line of the spec's example sale: three Laptops at 45000. -/
def laptopLines : List SaleLine :=
  [{ product_id := 1, quantity := 3, unit_price := 45000 }]

/-- A store with a pending purchase order for twenty units of product 1
(three units currently on hand). -/
def dbPO : DB :=
  { categories := [{ id := 1, name := "Electronics", description := "" }],
    products := [{ id := 1, name := "Widget", category_id := 1, description := "",
                   unit_price := 10, quantity := 3, reorder_level := 2, sku := "W1" }],
    sales := [], sale_items := [],
    purchase_orders := [{ id := 1, supplier_id := some 1, total_amount := 800000,
                          status := "pending" }],
    purchase_items := [{ purchase_order_id := 1, product_id := 1, quantity := 20,
                         unit_price := 40000, subtotal := 800000 }],
    stock_history := [], next_category_id := 2, next_product_id := 2, next_sale_id := 1 }

/-- A store with a recorded sale of three units of product 2 (currently five
on hand), used to exercise sale deletion. -/
def dbC6 : DB :=
  { categories := [{ id := 1, name := "Electronics", description := "" }],
    products := [{ id := 2, name := "Widget", category_id := 1, description := "",
                   unit_price := 10, quantity := 5, reorder_level := 2, sku := "W2" }],
    sales := [{ id := 1, customer_id := none, total_amount := 30,
                payment_method := "cash", status := "completed" }],
    sale_items := [{ sale_id := 1, product_id := 2, quantity := 3, unit_price := 10,
                     subtotal := 30 }],
    purchase_orders := [], purchase_items := [],
    stock_history := [{ product_id := 2, change_type := "sale", quantity_change := -3,
                        previous_quantity := 8, new_quantity := 5,
                        reference_id := some 1, reference_type := some "sale" }],
    next_category_id := 2, next_product_id := 3, next_sale_id := 2 }

/-- Two categories: category 1 owns a product, category 2 owns none. -/
def dbCat : DB :=
  { categories := [{ id := 1, name := "A", description := "" },
                   { id := 2, name := "B", description := "" }],
    products := [{ id := 1, name := "Widget", category_id := 1, description := "",
                   unit_price := 10, quantity := 5, reorder_level := 2, sku := "W1" }],
    sales := [], sale_items := [], purchase_orders := [], purchase_items := [],
    stock_history := [], next_category_id := 3, next_product_id := 2, next_sale_id := 1 }

/-- The rows a handler emitted, read off the append equation. -/
theorem emittedRows_eq (db dbF : DB) (rows : List StockHistory)
    (hh : dbF.stock_history = db.stock_history ++ rows) : emittedRows db dbF = rows := by
  rw [emittedRows, hh, List.drop_left]

/-- A successful adjustment emits exactly its one ledger row. -/
theorem adjust_stock_emitted (db : DB) (pid : Nat) (t : String) (q : Int) (r : String)
    (p : Product) (dbx : DB) (hp : findProduct db pid = some p)
    (h : adjust_stock db pid t q r = some dbx) :
    emittedRows db dbx =
      [{ product_id := pid, change_type := r,
         quantity_change := if t = "add" then q else -q,
         previous_quantity := p.quantity,
         new_quantity := if t = "add" then p.quantity + q else p.quantity - q,
         reference_id := none, reference_type := none }] := by
  rw [adjust_stock_parts db pid t q r p hp] at h
  cases h
  exact emittedRows_eq db _ _ rfl

/-! ## The claims -/

/-- C1: for any product present in the store and any sequence of manual
stock adjustments, sale creations and purchase receipts (no sale deletions),
the product's final quantity equals its initial quantity plus the sum of the
`quantity_change` values of all `StockHistory` rows those operations emitted
for it. -/
theorem claim1_quantity_is_initial_plus_emitted_deltas (db : DB) (ops : List Op)
    (pid : Nat) (p : Product) (hp : findProduct db pid = some p) :
    ∃ p2, findProduct (applyOps db ops) pid = some p2 ∧
      p2.quantity = p.quantity + histSum pid (emittedRows db (applyOps db ops)) := by
  have h := (applyOps_ledger db ops).2 pid
  simp only [prodQty, hp, Option.map_some'] at h
  rcases hf : findProduct (applyOps db ops) pid with _ | p2
  · rw [hf] at h
    simp at h
  · rw [hf] at h
    simp only [Option.map_some', Option.some.injEq] at h
    exact ⟨p2, rfl, h⟩

/-- Witness for C1: a concrete product at quantity 5 through an add-4 then a
remove-2 adjustment. -/
theorem claim1_witness :
    ∃ p2, findProduct (applyOps wDB
        [Op.adjust 1 "add" 4 "restock", Op.adjust 1 "shrink" 2 "damage"]) 1 = some p2 ∧
      p2.quantity = 5 + histSum 1 (emittedRows wDB (applyOps wDB
        [Op.adjust 1 "add" 4 "restock", Op.adjust 1 "shrink" 2 "damage"])) :=
  claim1_quantity_is_initial_plus_emitted_deltas wDB
    [Op.adjust 1 "add" 4 "restock", Op.adjust 1 "shrink" 2 "damage"] 1 wProduct rfl

/-- C2 counterexample: product creation with initial stock is not atomic.
Its first commit (a durable state in `add_product_commits`) already holds the
product with quantity 5 while the ledger is still empty; the `initial_stock`
row only arrives with the second commit. -/
theorem claim2_counterexample_add_product_two_commits :
    (add_product_commits emptyDB "Laptop" 1 "" 45000 5 10 "SKU1").length = 2 ∧
    ∃ dbMid ∈ add_product_commits emptyDB "Laptop" 1 "" 45000 5 10 "SKU1",
      prodQty dbMid 1 = some 5 ∧ dbMid.stock_history = [] := by decide

/-- C2 (amended): every quantity change is paired with exactly one ledger row
recording its delta and before/after values, and the pair is committed
atomically for manual adjustment, sale creation and purchase receipt (each
is a single commit, and every committed state satisfies the ledger-pairing
step `LedgerStep`); product creation with initial stock reaches the pairing
only in its final (second) commit, where it has emitted exactly the one
`initial_stock` row and holds the initial quantity. -/
theorem claim2_amended_pairing_and_commit_atomicity :
    (∀ db pid t q r db1, db1 ∈ adjust_stock_commits db pid t q r →
      LedgerStep db db1 ∧ (emittedRows db db1).length = 1) ∧
    (∀ db c pm lines db1, db1 ∈ create_sale_commits db c pm lines → LedgerStep db db1) ∧
    (∀ db oid db1, db1 ∈ receive_purchase_commits db oid → LedgerStep db db1) ∧
    (∀ db name cid desc price q rl sku db1,
      add_product db name cid desc price q rl sku = .ok db1 → 0 < q →
      findProduct db db.next_product_id = none →
      emittedRows db db1 = [initial_stock_row db.next_product_id q] ∧
      prodQty db1 db.next_product_id = some q) := by
  refine ⟨?_, ?_, ?_, ?_⟩
  · intro db pid t q r db1 hmem
    rcases h : adjust_stock db pid t q r with _ | dbx <;>
      simp only [adjust_stock_commits, h, List.mem_singleton, List.not_mem_nil] at hmem
    subst hmem
    refine ⟨adjust_ledgerStep db pid t q r db1 h, ?_⟩
    rcases hp : findProduct db pid with _ | p
    · simp only [adjust_stock, hp] at h
      cases h
    · rw [adjust_stock_emitted db pid t q r p db1 hp h]
      rfl
  · intro db c pm lines db1 hmem
    have hL := create_sale_db_ledger db c pm lines
    rcases h : create_sale db c pm lines with _ | _ | n | _ | ⟨db2, sid⟩ <;>
      simp only [create_sale_commits, h, List.mem_singleton, List.not_mem_nil] at hmem
    subst hmem
    simp only [create_sale_db, h] at hL
    exact hL
  · intro db oid db1 hmem
    have hL := receive_purchase_db_ledger db oid
    rcases h : receive_purchase db oid with _ | _ | _ | db2 <;>
      simp only [receive_purchase_commits, h, List.mem_singleton, List.not_mem_nil] at hmem
    subst hmem
    simp only [receive_purchase_db, h] at hL
    exact hL
  · intro db name cid desc price q rl sku db1 hok hq hfresh
    simp only [add_product] at hok
    split at hok
    · cases hok
    · rename_i dbc1 hc1
      rw [if_pos hq] at hok
      cases hok
      simp only [add_product_commit1] at hc1
      split at hc1
      · cases hc1
      · cases hc1
        constructor
        · exact emittedRows_eq db _ _ rfl
        · have hnone : db.products.find? (fun p => p.id == db.next_product_id) = none :=
            hfresh
          simp [prodQty, findProduct, findP, List.find?_append, hnone]

/-- Witness for C2 (amended): each conjunct applied at a concrete store —
a single-commit adjustment (ledger step, one row), a received purchase
order (ledger step), and a product created with initial stock 5 (exactly
the `initial_stock` row, quantity 5). -/
theorem claim2_amended_witness :
    (LedgerStep wDB (adjust_stock_db wDB 1 "add" 5 "restock") ∧
      (emittedRows wDB (adjust_stock_db wDB 1 "add" 5 "restock")).length = 1) ∧
    LedgerStep dbPO (receive_purchase_db dbPO 1) ∧
    (emittedRows emptyDB (add_product_db emptyDB "Laptop" 1 "" 45000 5 10 "SKU1")
        = [initial_stock_row 1 5] ∧
      prodQty (add_product_db emptyDB "Laptop" 1 "" 45000 5 10 "SKU1") 1 = some 5) := by
  have h := claim2_amended_pairing_and_commit_atomicity
  refine ⟨h.1 wDB 1 "add" 5 "restock" _ ?_, h.2.2.1 dbPO 1 _ ?_,
    h.2.2.2 emptyDB "Laptop" 1 "" 45000 5 10 "SKU1" _ rfl (by decide) (by decide)⟩
  · decide
  · decide

/-- C3: a sale request whose lines all reference existing products and in
which some line requests more than that product's current stock is rejected
in full — the result is the insufficient-stock rejection naming the first
short product, and the store is unchanged (no Sale, SaleItem, quantity change
or ledger row). -/
theorem claim3_insufficient_stock_sale_rejected (db : DB) (c : Option Nat) (pm : String)
    (lines : List SaleLine) (l0 : SaleLine) (p0 : Product)
    (hAll : ∀ l ∈ lines, (findProduct db l.product_id).isSome = true)
    (hFirst : lines.find? (shortLine db) = some l0)
    (hp0 : findProduct db l0.product_id = some p0) :
    create_sale db c pm lines = .insufficientStock p0.name ∧
    create_sale_db db c pm lines = db := by
  have hne : lines ≠ [] := by
    intro hE
    subst hE
    simp at hFirst
  have hEmpty : lines.isEmpty = false := by
    cases lines
    · exact absurd rfl hne
    · rfl
  have hck := checkLines_first_short db lines l0 p0 hAll hFirst hp0
  have h1 : create_sale db c pm lines = .insufficientStock p0.name := by
    simp [create_sale, hEmpty, hck]
  exact ⟨h1, by simp only [create_sale_db, h1]⟩

/-- One sale line requesting nine Widgets when only five are in stock. -/
def linesC3 : List SaleLine := [{ product_id := 1, quantity := 9, unit_price := 10 }]

/-- Witness for C3: the over-stock request is rejected naming the Widget and
leaves the store unchanged. -/
theorem claim3_witness :
    create_sale wDB none "card" linesC3 = .insufficientStock "Widget" ∧
    create_sale_db wDB none "card" linesC3 = wDB :=
  claim3_insufficient_stock_sale_rejected wDB none "card" linesC3
    { product_id := 1, quantity := 9, unit_price := 10 } wProduct
    (by decide) (by decide) rfl

/-- C4: purchase receipt is once-only. An order already in status `received`
is rejected with a warning and nothing changes; a successful first receipt
flips the status to `received`, keeps the ledger paired with the quantities
(each product rises by the sum of its line quantities), and emits one row per
order line with change_type `purchase`, reference the purchase-order id,
delta the line quantity, and after = before + delta; and calling receive a
second time is a no-op, so receive twice equals receive once. -/
theorem claim4_receive_purchase_once_only (db : DB) (oid : Nat) :
    (∀ o, findPurchase db oid = some o → o.status = "received" →
      receive_purchase db oid = .alreadyReceived ∧ receive_purchase_db db oid = db) ∧
    (∀ db2, receive_purchase db oid = .ok db2 →
      (∃ o, findPurchase db oid = some o ∧ o.status ≠ "received" ∧
        findPurchase db2 oid = some { o with status := "received" }) ∧
      LedgerStep db db2 ∧
      emittedRows db db2 = purchaseLedgerP oid db.products
        (db.purchase_items.filter (fun it => it.purchase_order_id == oid)) ∧
      (emittedRows db db2).map (fun row => row.quantity_change)
        = (db.purchase_items.filter (fun it => it.purchase_order_id == oid)).map
            (fun it => it.quantity) ∧
      (emittedRows db db2).map (fun row => row.product_id)
        = (db.purchase_items.filter (fun it => it.purchase_order_id == oid)).map
            (fun it => it.product_id) ∧
      ∀ row ∈ emittedRows db db2, row.change_type = "purchase" ∧
        row.reference_id = some oid ∧ row.reference_type = some "purchase" ∧
        row.new_quantity = row.previous_quantity + row.quantity_change) ∧
    receive_purchase_db (receive_purchase_db db oid) oid = receive_purchase_db db oid := by
  refine ⟨?_, ?_, receive_purchase_db_idem db oid⟩
  · intro o ho hst
    have h1 : receive_purchase db oid = .alreadyReceived := by
      simp [receive_purchase, ho, hst]
    exact ⟨h1, by simp only [receive_purchase_db, h1]⟩
  · intro db2 hok
    obtain ⟨⟨o, ho, hst, hfind⟩, hsh, ⟨dbr, hw⟩, hls, hs, hsi⟩ :=
      receive_purchase_ok_parts db oid db2 hok
    have hemit : emittedRows db db2 = purchaseLedgerP oid db.products
        (db.purchase_items.filter (fun it => it.purchase_order_id == oid)) :=
      emittedRows_eq db db2 _ hsh
    have hfields := purchaseLedgerP_fields oid
      (db.purchase_items.filter (fun it => it.purchase_order_id == oid)) db dbr hw
    refine ⟨⟨o, ho, hst, hfind⟩, hls, hemit, ?_, ?_, ?_⟩
    · rw [hemit]
      exact hfields.1
    · rw [hemit]
      exact hfields.2
    · intro row hrow
      rw [hemit] at hrow
      exact purchaseLedgerP_mem oid db.products _ row hrow

/-- Witness for C4: receiving the pending order of `dbPO` succeeds, a second
receive changes nothing, and the emitted rows are the order's purchase rows
(here: one row of +20 for product 1, from 3 to 23). -/
theorem claim4_witness :
    receive_purchase_db (receive_purchase_db dbPO 1) 1 = receive_purchase_db dbPO 1 ∧
    LedgerStep dbPO (receive_purchase_db dbPO 1) ∧
    emittedRows dbPO (receive_purchase_db dbPO 1)
      = [{ product_id := 1, change_type := "purchase", quantity_change := 20,
           previous_quantity := 3, new_quantity := 23,
           reference_id := some 1, reference_type := some "purchase" }] ∧
    prodQty (receive_purchase_db dbPO 1) 1 = some 23 := by
  have h := claim4_receive_purchase_once_only dbPO 1
  have hb := h.2.1 (receive_purchase_db dbPO 1) rfl
  refine ⟨h.2.2, hb.2.1, ?_, by decide⟩
  rw [hb.2.2.1]
  decide

/-- C5: a manual adjustment with direction `add` (increase) adds the
magnitude to the quantity and any other direction (decrease) subtracts it,
with no floor check against zero — the resulting quantity is exactly the
signed sum and may be negative — and exactly one ledger row is appended
whose change_type is the supplied reason, whose delta is plus or minus the
magnitude, and whose previous/new quantities are the before/after values. -/
theorem claim5_adjust_stock_signed_update (db : DB) (pid : Nat) (t : String) (q : Int)
    (r : String) (p : Product) (hp : findProduct db pid = some p) :
    ∃ db1, adjust_stock db pid t q r = some db1 ∧
      prodQty db1 pid = some (if t = "add" then p.quantity + q else p.quantity - q) ∧
      emittedRows db db1 =
        [{ product_id := pid, change_type := r,
           quantity_change := if t = "add" then q else -q,
           previous_quantity := p.quantity,
           new_quantity := if t = "add" then p.quantity + q else p.quantity - q,
           reference_id := none, reference_type := none }] := by
  refine ⟨_, adjust_stock_parts db pid t q r p hp, ?_, ?_⟩
  · have hq0 : prodQty db pid = some p.quantity := by
      simp only [prodQty, hp]
      rfl
    have h2 : prodQty (updateProductQty db pid
        (fun x => if t = "add" then x + q else x - q)) pid
        = some (if t = "add" then p.quantity + q else p.quantity - q) := by
      rw [prodQty_update, if_pos rfl, hq0]
      rfl
    exact h2
  · exact emittedRows_eq db _ _ rfl

/-- Witness for C5: removing 8 from a stock of 5 is permitted and leaves the
quantity at -3, with the ledger row recording 5 → -3. -/
theorem claim5_witness :
    ∃ db1, adjust_stock wDB 1 "remove" 8 "damage" = some db1 ∧
      prodQty db1 1 = some (-3) ∧
      emittedRows wDB db1 =
        [{ product_id := 1, change_type := "damage", quantity_change := -8,
           previous_quantity := 5, new_quantity := -3,
           reference_id := none, reference_type := none }] := by
  obtain ⟨db1, h1, h2, h3⟩ :=
    claim5_adjust_stock_signed_update wDB 1 "remove" 8 "damage" wProduct rfl
  refine ⟨db1, h1, ?_, ?_⟩
  · rw [h2]
    decide
  · rw [h3]
    decide

/-- C6: deleting a sale restores each line's recorded quantity onto its
product (additive reversal), removes the Sale and its SaleItem rows, and
emits no compensating StockHistory row — the ledger is exactly as before. -/
theorem claim6_delete_sale_restores_without_ledger_row (db : DB) (sid : Nat) (s : Sale)
    (hs : findSale db sid = some s)
    (hAll : ∀ it ∈ db.sale_items.filter (fun it => it.sale_id == sid),
      (findProduct db it.product_id).isSome = true) :
    ∃ db1, delete_sale db sid = some db1 ∧
      db1.stock_history = db.stock_history ∧
      db1.sales = db.sales.filter (fun x => x.id != sid) ∧
      db1.sale_items = db.sale_items.filter (fun it => it.sale_id != sid) ∧
      ∀ pid, prodQty db1 pid = (prodQty db pid).map
        (fun q => q + restoredSum pid (db.sale_items.filter (fun it => it.sale_id == sid))) :=
  delete_sale_parts db sid s hs hAll

/-- Witness for C6: deleting the recorded sale of 3 units restores product 2
from 5 to 8 while the ledger and the ledger-only sale row stay untouched. -/
theorem claim6_witness :
    ∃ db1, delete_sale dbC6 1 = some db1 ∧
      db1.stock_history = dbC6.stock_history ∧
      db1.sales = [] ∧ db1.sale_items = [] ∧
      prodQty db1 2 = some 8 := by
  obtain ⟨db1, h1, h2, h3, h4, h5⟩ := claim6_delete_sale_restores_without_ledger_row dbC6 1
    { id := 1, customer_id := none, total_amount := 30,
      payment_method := "cash", status := "completed" } rfl (by decide)
  refine ⟨db1, h1, h2, by rw [h3]; decide, by rw [h4]; decide, ?_⟩
  rw [h5 2]
  decide

/-- C7: the per-line stock check of sale creation compares each requested
quantity against the product's pre-sale stored quantity and the decrements
happen only after all checks pass; consequently a sale with two lines for
the same product, each individually within its stock of 5 but jointly
exceeding it, is accepted and leaves the quantity negative. -/
theorem claim7_oversell_via_duplicate_lines :
    linesC7.all (fun l => !shortLine wDB l) = true ∧
    (linesC7.map (fun l => l.quantity)).sum > wProduct.quantity ∧
    saleAccepted wDB none "cash" linesC7 = true ∧
    prodQty (create_sale_db wDB none "cash" linesC7) 1 = some (-1) := by decide

/-- C8 counterexample: adding a product whose sku duplicates an existing one
is not rejected with a handled warning — the route has no duplicate
pre-check, so the INSERT violates the unique index on `sku` and the request
aborts through the database-error path (500, rolled back). -/
theorem claim8_counterexample_duplicate_sku_hard_error :
    add_product wDB "Laptop 2" 1 "" 999 0 10 "W1" = .integrityError := by decide

/-- C8 (amended): a duplicate Category name is rejected with a user-visible
warning and writes nothing; a duplicate Product sku is not pre-checked — the
insert aborts with a database integrity error (a hard 500, rolled back), so
it also writes nothing but surfaces as an internal error rather than a
warning. -/
theorem claim8_amended_duplicate_key_handling (db : DB) :
    (∀ name desc, db.categories.any (fun c => c.name == name) = true →
      add_category db name desc = .duplicate ∧ add_category_db db name desc = db) ∧
    (∀ name cid desc price q rl sku, db.products.any (fun p => p.sku == sku) = true →
      add_product db name cid desc price q rl sku = .integrityError ∧
      add_product_db db name cid desc price q rl sku = db) := by
  constructor
  · intro name desc hdup
    have h1 : add_category db name desc = .duplicate := by
      simp [add_category, hdup]
    exact ⟨h1, by simp only [add_category_db, h1]⟩
  · intro name cid desc price q rl sku hdup
    have h1 : add_product db name cid desc price q rl sku = .integrityError := by
      simp [add_product, add_product_commit1, hdup]
    exact ⟨h1, by simp only [add_product_db, h1]⟩

/-- Witness for C8 (amended): a duplicate category name is warned away with
no write, and a duplicate sku insert fails hard with no write. -/
theorem claim8_witness :
    add_category wDB "Electronics" "dup" = .duplicate ∧
    add_category_db wDB "Electronics" "dup" = wDB ∧
    add_product_db wDB "Laptop 2" 1 "" 999 0 10 "W1" = wDB := by
  have h := claim8_amended_duplicate_key_handling wDB
  obtain ⟨h1, h2⟩ := h.1 "Electronics" "dup" (by decide)
  obtain ⟨h3, h4⟩ := h.2 "Laptop 2" 1 "" 999 0 10 "W1" (by decide)
  exact ⟨h1, h2, h4⟩

/-- C9: deleting a category that still owns at least one product fails with
a notice and leaves the store unchanged (category and products untouched);
deleting a category owning no products removes exactly that category, and in
every case the products table is untouched. -/
theorem claim9_delete_category_guard (db : DB) (cid : Nat) (c : Category)
    (hc : findCategory db cid = some c) :
    (db.products.any (fun p => p.category_id == cid) = true →
      delete_category db cid = .blocked ∧ delete_category_db db cid = db) ∧
    (db.products.any (fun p => p.category_id == cid) = false →
      delete_category db cid
        = .ok { db with categories := db.categories.filter (fun x => x.id != cid) }) ∧
    (delete_category_db db cid).products = db.products := by
  have hblocked : db.products.any (fun p => p.category_id == cid) = true →
      delete_category db cid = .blocked := by
    intro hAny
    simp [delete_category, hc, hAny]
  have hok : db.products.any (fun p => p.category_id == cid) = false →
      delete_category db cid
        = .ok { db with categories := db.categories.filter (fun x => x.id != cid) } := by
    intro hAny
    simp [delete_category, hc, hAny]
  refine ⟨fun hAny => ⟨hblocked hAny, by simp only [delete_category_db, hblocked hAny]⟩,
    hok, ?_⟩
  cases hAny : db.products.any (fun p => p.category_id == cid)
  · simp only [delete_category_db, hok hAny]
  · simp only [delete_category_db, hblocked hAny]

/-- Witness for C9: in `dbCat`, category 1 (owning a product) cannot be
deleted and nothing changes; category 2 (owning none) is removed. -/
theorem claim9_witness :
    (delete_category dbCat 1 = .blocked ∧ delete_category_db dbCat 1 = dbCat) ∧
    delete_category dbCat 2
      = .ok { dbCat with categories := dbCat.categories.filter (fun x => x.id != 2) } := by
  have h1 := claim9_delete_category_guard dbCat 1 { id := 1, name := "A", description := "" } rfl
  have h2 := claim9_delete_category_guard dbCat 2 { id := 2, name := "B", description := "" } rfl
  exact ⟨h1.1 (by decide), h2.2.1 (by decide)⟩

/-- C10: for every successfully created sale, each stored line's subtotal is
its quantity times its unit price, the sale header's total is the sum of the
line subtotals, and each line's ledger row is a `sale` row referencing the
sale with delta minus the line quantity and after = before + delta, the
before value being the product's stock after the earlier lines of the same
sale (for the first line on a product: its pre-sale stock). -/
theorem claim10_sale_totals_and_ledger (db : DB) (c : Option Nat) (pm : String)
    (lines : List SaleLine) (db2 : DB) (sid : Nat)
    (h : create_sale db c pm lines = .ok db2 sid) :
    db2.sale_items = db.sale_items ++ lines.map (fun l =>
      { sale_id := sid, product_id := l.product_id, quantity := l.quantity,
        unit_price := l.unit_price, subtotal := (l.quantity : Rat) * l.unit_price }) ∧
    (∃ s, db2.sales = db.sales ++ [s] ∧ s.id = sid ∧
      s.total_amount = (lines.map (fun l => (l.quantity : Rat) * l.unit_price)).sum) ∧
    emittedRows db db2 = saleLedgerP sid db.products (lines.map (fun l =>
      { product_id := l.product_id, quantity := l.quantity, unit_price := l.unit_price,
        subtotal := (l.quantity : Rat) * l.unit_price })) ∧
    (emittedRows db db2).map (fun row => row.quantity_change)
      = lines.map (fun l => -l.quantity) ∧
    (emittedRows db db2).map (fun row => row.product_id)
      = lines.map (fun l => l.product_id) ∧
    ∀ row ∈ emittedRows db db2, row.change_type = "sale" ∧ row.reference_id = some sid ∧
      row.reference_type = some "sale" ∧
      row.new_quantity = row.previous_quantity + row.quantity_change := by
  obtain ⟨hsid, total, items, hc, hsales, hsi, hsh, ⟨dbh, hw, hdbh⟩, hls⟩ :=
    create_sale_ok_parts db c pm lines db2 sid h
  obtain ⟨hitems, htotal⟩ := checkLines_ok db lines total items hc
  have hemit : emittedRows db db2 = saleLedgerP sid db.products items :=
    emittedRows_eq db db2 _ hsh
  have hfields := saleLedgerP_fields sid items dbh db2 hw
  rw [hdbh] at hfields
  refine ⟨?_, ?_, ?_, ?_, ?_, ?_⟩
  · rw [hsi, hitems, List.map_map]
    rfl
  · refine ⟨_, hsales, rfl, ?_⟩
    exact htotal
  · rw [hemit, hitems]
  · rw [hemit, hfields.1, hitems, List.map_map]
    rfl
  · rw [hemit, hfields.2, hitems, List.map_map]
    rfl
  · intro row hrow
    rw [hemit] at hrow
    exact saleLedgerP_mem sid db.products items row hrow

/-- Witness for C10, the spec's example scenario: selling 3 Laptops at 45000
from stock 10 yields a sale totalling 135000, stock 7, and one ledger row of
-3 from 10 to 7. -/
theorem claim10_witness :
    emittedRows laptopDB (create_sale_db laptopDB none "cash" laptopLines)
      = [{ product_id := 1, change_type := "sale", quantity_change := -3,
           previous_quantity := 10, new_quantity := 7,
           reference_id := some 1, reference_type := some "sale" }] ∧
    (∃ s, (create_sale_db laptopDB none "cash" laptopLines).sales
        = laptopDB.sales ++ [s] ∧ s.total_amount = 135000) ∧
    prodQty (create_sale_db laptopDB none "cash" laptopLines) 1 = some 7 := by
  have h := claim10_sale_totals_and_ledger laptopDB none "cash" laptopLines
    (create_sale_db laptopDB none "cash" laptopLines) 1 rfl
  refine ⟨?_, ?_, by decide⟩
  · rw [h.2.2.1]
    decide
  · obtain ⟨s, hs, hsid, htot⟩ := h.2.1
    refine ⟨s, hs, ?_⟩
    rw [htot]
    norm_num [laptopLines]

end IMS
